import Mathlib

/-!
Shallow embedding of the Horovod NCCL/CUDA allreduce core
(`nccl_operations.cc`, `cuda_operations.cc`/`.h`, `collective_operations.h`)
and proofs of the specification claims about it.

Machine integers (`int64_t` element counts, `size_t` byte lengths) are
embedded as `Nat`; the quantities involved are non-negative and far from
overflow in the source. Stateful code is embedded as explicit state
passing; the operations enqueued on the device stream or executed on the
host are collected as explicit traces.
-/

namespace Horovod

/-- Horovod element types (`DataType` enum from `common.h`, whose members
are referenced in src as `HOROVOD_INT32`, `HOROVOD_BYTE`, ...). -/
inductive DataType
  | HOROVOD_UINT8
  | HOROVOD_INT8
  | HOROVOD_UINT16
  | HOROVOD_INT16
  | HOROVOD_INT32
  | HOROVOD_INT64
  | HOROVOD_FLOAT16
  | HOROVOD_FLOAT32
  | HOROVOD_FLOAT64
  | HOROVOD_BOOL
  | HOROVOD_BYTE
  deriving DecidableEq, Repr

/-- Modelled from the spec: `DataType_Name` is defined in `common.cc`,
which is not part of src/; the spec's error scenario shows the name of
`HOROVOD_INT8` rendered as INT8, so names are the enum tags without the
`HOROVOD_` prefix. -/
def DataType_Name : DataType → String
  | .HOROVOD_UINT8 => "UINT8"
  | .HOROVOD_INT8 => "INT8"
  | .HOROVOD_UINT16 => "UINT16"
  | .HOROVOD_INT16 => "INT16"
  | .HOROVOD_INT32 => "INT32"
  | .HOROVOD_INT64 => "INT64"
  | .HOROVOD_FLOAT16 => "FLOAT16"
  | .HOROVOD_FLOAT32 => "FLOAT32"
  | .HOROVOD_FLOAT64 => "FLOAT64"
  | .HOROVOD_BOOL => "BOOL"
  | .HOROVOD_BYTE => "BYTE"

/-- NCCL datatype constants (`ncclDataType_t`). -/
inductive NcclDataType
  | ncclInt32
  | ncclInt64
  | ncclFloat16
  | ncclFloat32
  | ncclFloat64
  deriving DecidableEq, Repr

/-- `GetNCCLDataType` (nccl_operations.cc lines 22-38): the switch over the
tensor dtype; the default branch throws the fatal "not supported" error. -/
def GetNCCLDataType (dtype : DataType) : Except String NcclDataType :=
  match dtype with
  | .HOROVOD_INT32 => .ok .ncclInt32
  | .HOROVOD_INT64 => .ok .ncclInt64
  | .HOROVOD_FLOAT16 => .ok .ncclFloat16
  | .HOROVOD_FLOAT32 => .ok .ncclFloat32
  | .HOROVOD_FLOAT64 => .ok .ncclFloat64
  | _ => .error (String.append (String.append "Type " (DataType_Name dtype))
                  " is not supported in NCCL mode.")

/-- The fields of `HorovodGlobalState` read by the two allreduce
strategies (global_state.h is not in src/; the fields and their meanings
are exactly the accesses in nccl_operations.cc and the data-model section
of the spec). -/
structure HorovodGlobalState where
  rank : Nat
  size : Nat
  local_rank : Nat
  local_size : Nat
  is_homogeneous : Bool
  local_comm_ranks : List Nat
  deriving DecidableEq, Repr

/-- Modelled from the spec: `FUSION_BUFFER_ATOMIC_UNIT` (the spec's
`FUSION_ATOM`) is a compile-time constant from `common.h`, not in src/;
its value 64 is the one the spec's scenario 3 states. -/
def FUSION_BUFFER_ATOMIC_UNIT : Nat := 64

/-- Operations enqueued on the device stream or executed on the host by a
`DoAllreduce` call, in program order. -/
inductive Op
  | ncclAllReduce (count : Nat)
  | ncclReduceScatter (count : Nat)
  | ncclReduce (count : Nat) (root : Nat)
  | ncclAllGather (count : Nat)
  | ncclBcast (count : Nat) (root : Nat)
  | waitForEvents
  | memcpyDeviceToHost (bytes : Nat)
  | cpuAllreduce (count : Nat)
  | memcpyHostToDevice (bytes : Nat)
  deriving DecidableEq, Repr

/-- Which trace entries are device-side NCCL collectives. -/
def Op.isDeviceCollective : Op → Bool
  | .ncclAllReduce _ => true
  | .ncclReduceScatter _ => true
  | .ncclReduce _ _ => true
  | .ncclAllGather _ => true
  | .ncclBcast _ _ => true
  | _ => false

/-- Per-job mutable state of `CUDAAllreduceAsync` used by the hierarchical
path: the event queue and the `host_buffer_` pointer. A pointer is
`Option Nat` with `none` for `nullptr`; `malloc` is modelled as returning
a fresh non-null pointer (carrying the requested byte count). -/
structure JobState where
  event_queue : List String
  host_buffer : Option Nat
  deriving DecidableEq, Repr

/-- `CUDAAllreduceAsync::Initialize` clears the host-buffer pointer and
creates a fresh empty event queue. -/
def initJobState : JobState := { event_queue := [], host_buffer := none }

/-- Padding step of `NCCLHierarchicalAllreduce::DoAllreduce`
(nccl_operations.cc lines 137-143): if the cluster is homogeneous and
more than one entry is fused, round `num_elements` up to a multiple of
`local_size * FUSION_BUFFER_ATOMIC_UNIT`. -/
def hierPad (gs : HorovodGlobalState) (numEntries num_elements : Nat) : Nat :=
  if gs.is_homogeneous ∧ 1 < numEntries then
    let d := gs.local_size * FUSION_BUFFER_ATOMIC_UNIT
    ((num_elements + d - 1) / d) * d
  else num_elements

/-- The split quantities computed by `NCCLHierarchicalAllreduce::DoAllreduce`
(nccl_operations.cc lines 157-192) from the (already padded) element
count. -/
structure HierSplit where
  num_elements_per_rank : Nat
  buffer_len_per_rank : Nat
  num_elements_remaining : Nat
  buffer_len_remaining : Nat
  root_rank : Nat
  is_root_rank : Bool
  total_num_elements : Nat
  total_buffer_len : Nat
  deriving DecidableEq, Repr

/-- nccl_operations.cc lines 157-192, one field per local variable. -/
def hierSplit (gs : HorovodGlobalState) (element_size num_elements : Nat) : HierSplit :=
  let per := if gs.is_homogeneous then num_elements / gs.local_size else 0
  let blPer := element_size * per
  let rem := if gs.is_homogeneous then num_elements % gs.local_size else num_elements
  let blRem := element_size * rem
  let root := if gs.is_homogeneous then gs.local_size - 1 else 0
  let isRoot := decide (gs.local_rank = root)
  { num_elements_per_rank := per
    buffer_len_per_rank := blPer
    num_elements_remaining := rem
    buffer_len_remaining := blRem
    root_rank := root
    is_root_rank := isRoot
    total_num_elements := if isRoot then per + rem else per
    total_buffer_len := if isRoot then blPer + blRem else blPer }

/-- `NCCLHierarchicalAllreduce::DoAllreduce` (nccl_operations.cc lines
126-265) as a state transformer producing the trace of enqueued
operations: padding, split, the four guarded device collectives and the
host-side cross-node phase (which allocates `host_buffer_`). -/
def hierDoAllreduce (gs : HorovodGlobalState) (numEntries element_size num_elements0 : Nat)
    (st : JobState) : JobState × List Op :=
  let num_elements := hierPad gs numEntries num_elements0
  let s := hierSplit gs element_size num_elements
  let t1 : List Op :=
    if 0 < s.num_elements_per_rank then [ Op.ncclReduceScatter s.num_elements_per_rank ] else []
  let t2 : List Op :=
    if 0 < s.num_elements_remaining then
      [ Op.ncclReduce s.num_elements_remaining s.root_rank ] else []
  let stepHost : JobState × List Op :=
    if gs.is_homogeneous ∨ s.is_root_rank then
      ({ st with host_buffer := some s.total_buffer_len },
       [ Op.waitForEvents, Op.memcpyDeviceToHost s.total_buffer_len,
         Op.cpuAllreduce s.total_num_elements, Op.memcpyHostToDevice s.total_buffer_len ])
    else (st, [])
  let t4 : List Op :=
    if 0 < s.num_elements_per_rank then [ Op.ncclAllGather s.num_elements_per_rank ] else []
  let t5 : List Op :=
    if 0 < s.num_elements_remaining then
      [ Op.ncclBcast s.num_elements_remaining s.root_rank ] else []
  (stepHost.1, t1 ++ t2 ++ stepHost.2 ++ t4 ++ t5)

/-- Steps performed by the detached finalizer thread of
`CUDAAllreduceAsync::Finalize`. -/
inductive FinalizeOp
  | waitEvent (name : String)
  | freeHostBuffer
  | fireCallback (tensor_name : String)
  deriving DecidableEq, Repr

/-- `CUDAAllreduceAsync::Finalize`: a terminal unnamed event is recorded
onto the queue, then the detached thread drains the queue in FIFO order,
frees the host buffer exactly if the pointer is non-null, and fires each
entry's callback. -/
def finalizeJob (entries : List String) (st : JobState) : List FinalizeOp :=
  let queue := st.event_queue ++ [ "" ]
  queue.map FinalizeOp.waitEvent ++
    (match st.host_buffer with
     | some _ => [ FinalizeOp.freeHostBuffer ]
     | none => []) ++
    entries.map FinalizeOp.fireCallback

/-- Host-transport operations of the communicator build protocol in
`NCCLAllreduce::InitComm` (nccl_operations.cc lines 53-87). -/
inductive CommOp
  | getUniqueId
  | broadcastId
  | initRank (size rank : Nat)
  | barrier
  deriving DecidableEq, Repr

/-- The build protocol: rank 0 generates the unique id, everyone
broadcasts it, inits with rank, then a global barrier. -/
def buildProtocol (rank size : Nat) : List CommOp :=
  (if rank = 0 then [ CommOp.getUniqueId ] else []) ++
    [ CommOp.broadcastId, CommOp.initRank size rank, CommOp.barrier ]

/-- `NCCLContext`: the communicator cache `nccl_comms`, an association
of device-tuple keys to communicator handles. `operator[]` on the C++
unordered_map default-inserts a null handle; a key that is absent or maps
to null is modelled as `lookupComm = none`, and a stored (built, hence
non-null) handle as `some h`. -/
structure NCCLContext where
  nccl_comms : List (List Int × Nat)
  deriving DecidableEq, Repr

/-- Lookup in the communicator cache. -/
def lookupComm (m : List (List Int × Nat)) (k : List Int) : Option Nat :=
  match m with
  | [] => none
  | (k1, v) :: rest => if k1 = k then some v else lookupComm rest k

/-- `NCCLAllreduce::InitComm` restricted to one key: if the key maps to a
null handle, run the build protocol and store the freshly built
communicator; otherwise reuse. Returns the new cache, whether a build
happened, and the host-transport operations performed. -/
def initComm (ctx : NCCLContext) (key : List Int) (newComm : Nat) (rank size : Nat) :
    NCCLContext × Bool × List CommOp :=
  match lookupComm ctx.nccl_comms key with
  | some _ => (ctx, false, [])
  | none =>
      ({ nccl_comms := (key, newComm) :: ctx.nccl_comms }, true, buildProtocol rank size)

/-- `NCCLAllreduce::GetDeviceMap` (nccl_operations.cc lines 101-103):
the flat strategy keys the communicator by the response's device list
as given (one device per worker rank, in rank order). -/
def NCCLAllreduce_GetDeviceMap (devices : List Int) : List Int := devices

/-- `NCCLHierarchicalAllreduce::GetDeviceMap` (nccl_operations.cc lines
267-274): the device of each intra-node peer, in `local_comm_ranks`
order. `devices[rank]` is modelled with `getD` (in-bounds in every use). -/
def NCCLHierarchicalAllreduce_GetDeviceMap (gs : HorovodGlobalState)
    (devices : List Int) : List Int :=
  gs.local_comm_ranks.map (fun r => devices.getD r 0)

/-- CUDA event-creation flags (`cuda_runtime_api.h` values). -/
def cudaEventBlockingSync : Nat := 1

/-- CUDA event-creation flags (`cuda_runtime_api.h` values). -/
def cudaEventDisableTiming : Nat := 2

/-- Result of `CUDAContext::GetCudaEvent`: either an event recycled from
the per-device pool, or a freshly created event with the given flags. -/
inductive AcquireResult
  | recycled (e : Nat)
  | created (flags : Nat)
  deriving DecidableEq, Repr

/-- The per-device event pools `CUDAContext::cuda_events`
(`std::unordered_map<int, std::queue<cudaEvent_t>>`): a `std::queue` is a
FIFO, `push` appends at the back, `front`/`pop` take from the front; the
list head models the queue front. -/
def EventPools : Type := Nat → List Nat

/-- `CUDAContext::GetCudaEvent` (cuda_operations.cc lines 25-45) for the
current device: pop the front of the device's queue if non-empty, else
create a fresh event with blocking-sync and timing-disabled flags. -/
def getCudaEvent (pool : EventPools) (device : Nat) : AcquireResult × EventPools :=
  match pool device with
  | [] => (AcquireResult.created (cudaEventBlockingSync + cudaEventDisableTiming), pool)
  | e :: rest => (AcquireResult.recycled e, Function.update pool device rest)

/-- `CUDAContext::ReleaseCudaEvent` (cuda_operations.cc lines 47-62):
push the event onto the back of the current device's queue. -/
def releaseCudaEvent (pool : EventPools) (device : Nat) (e : Nat) : EventPools :=
  Function.update pool device (pool device ++ [ e ])

/-- The empty event pools. -/
def emptyPools : EventPools := fun _ => []

/-- Release a list of events in order onto one device's pool. -/
def releaseAll (pool : EventPools) (device : Nat) (es : List Nat) : EventPools :=
  es.foldl (fun p e => releaseCudaEvent p device e) pool

/-- A tensor-table entry as the `Enabled` predicates see it: only the
device id matters (`CPU_DEVICE_ID` denotes host placement). -/
structure TensorTableEntry where
  device : Int
  deriving DecidableEq, Repr

instance : Inhabited TensorTableEntry := ⟨{ device := 0 }⟩

/-- Modelled from the spec: `CPU_DEVICE_ID` is a negative sentinel
defined in `common.h`, not in src/. -/
def CPU_DEVICE_ID : Int := -1

/-- `CUDAAllreduce::Enabled` (cuda_operations.cc lines 100-104):
`entries[0].device != CPU_DEVICE_ID`. Batches are non-empty. -/
def CUDAAllreduce_Enabled (entries : List TensorTableEntry) : Bool :=
  decide (entries.headI.device ≠ CPU_DEVICE_ID)

/-- `NCCLHierarchicalAllreduce::Enabled` (nccl_operations.cc lines
117-124): false if the base `Enabled` is false, else the parameter
manager's hierarchical-allreduce toggle. -/
def NCCLHierarchicalAllreduce_Enabled (pmHierarchical : Bool)
    (entries : List TensorTableEntry) : Bool :=
  if !(CUDAAllreduce_Enabled entries) then false else pmHierarchical

/-- Flat `NCCLAllreduce::DoAllreduce` (nccl_operations.cc lines 89-99):
the dtype is resolved (throwing on unsupported types) and a single
device allreduce of the fused buffer is enqueued. -/
def ncclDoAllreduce (dtype : DataType) (num_elements : Nat) : Except String (List Op) := do
  let _ ← GetNCCLDataType dtype
  pure [ Op.ncclAllReduce num_elements ]

/-- The flat Execute pipeline as far as C7 needs it: `DoAllreduce`
enqueues work, and only after success does the finalizer fire one
callback per entry. An error propagates before anything is enqueued and
before any callback fires. -/
def executeFlat (dtype : DataType) (entries : List String) (num_elements : Nat) :
    Except String (List Op × List String) := do
  let ops ← ncclDoAllreduce dtype num_elements
  pure (ops, entries)

/-- The element types the switch in `GetNCCLDataType` maps successfully. -/
def ncclSupported : List DataType :=
  [ DataType.HOROVOD_INT32, DataType.HOROVOD_INT64, DataType.HOROVOD_FLOAT16,
    DataType.HOROVOD_FLOAT32, DataType.HOROVOD_FLOAT64 ]

/-- Example homogeneous global state: 2 nodes times 2 GPUs, local rank 1
(these are the spec scenarios' dimensions). -/
def gsHom : HorovodGlobalState :=
  { rank := 1, size := 4, local_rank := 1, local_size := 2,
    is_homogeneous := true, local_comm_ranks := [ 1, 3 ] }

/-- Example heterogeneous global state. -/
def gsHet : HorovodGlobalState :=
  { rank := 1, size := 4, local_rank := 1, local_size := 2,
    is_homogeneous := false, local_comm_ranks := [ 1, 3 ] }

/-- Example homogeneous state with 4 local ranks, used to exhibit the
padding interaction of claim C8. -/
def gsWide : HorovodGlobalState :=
  { rank := 0, size := 8, local_rank := 0, local_size := 4,
    is_homogeneous := true, local_comm_ranks := [ 0, 1, 2, 3 ] }

/-! ### Helper lemmas -/

/-- `((E + d - 1) / d) * d` dominates `E`. -/
theorem roundUp_ge (E d : Nat) (hd : 0 < d) : E ≤ (E + d - 1) / d * d := by
  have h := Nat.lt_div_mul_add (a := E + d - 1) hd
  revert h
  generalize (E + d - 1) / d * d = c
  intro h
  omega

/-- `((E + d - 1) / d) * d` is below every multiple of `d` that
dominates `E`. -/
theorem roundUp_min (E d m : Nat) (hd : 0 < d) (hm : m % d = 0) (hEm : E ≤ m) :
    (E + d - 1) / d * d ≤ m := by
  obtain ⟨k, hk⟩ := Nat.dvd_of_mod_eq_zero hm
  have h1 : E + d - 1 ≤ d * k + (d - 1) := by
    have h2 : E ≤ d * k := hk ▸ hEm
    have h3 : E + d - 1 ≤ E + (d - 1) := by omega
    exact h3.trans (Nat.add_le_add_right h2 (d - 1))
  have hq : (E + d - 1) / d ≤ (d * k + (d - 1)) / d := Nat.div_le_div_right h1
  have hkk : (d * k + (d - 1)) / d = k := by
    rw [Nat.mul_add_div hd, Nat.div_eq_of_lt (by omega), Nat.add_zero]
  rw [hkk] at hq
  have h4 : (E + d - 1) / d * d ≤ k * d := Nat.mul_le_mul hq (Nat.le_refl d)
  rw [hk, mul_comm d k]
  exact h4

/-- Releasing a list of events appends it to the device's FIFO. -/
theorem releaseAll_apply (es : List Nat) (pool : EventPools) (device : Nat) :
    releaseAll pool device es device = pool device ++ es := by
  induction es generalizing pool with
  | nil => simp [releaseAll]
  | cons e rest ih =>
      show releaseAll (releaseCudaEvent pool device e) device rest device = _
      rw [ih, releaseCudaEvent, Function.update_same]
      simp

/-- `initComm` preserves every entry already in the cache. -/
theorem initComm_preserves (ctx : NCCLContext) (key : List Int) (newComm rank size : Nat)
    (k : List Int) (v : Nat) (hv : lookupComm ctx.nccl_comms k = some v) :
    lookupComm (initComm ctx key newComm rank size).1.nccl_comms k = some v := by
  unfold initComm
  cases hl : lookupComm ctx.nccl_comms key with
  | some w => simpa using hv
  | none =>
      simp only [lookupComm]
      have hne : key ≠ k := by
        intro he
        rw [he, hv] at hl
        exact Option.noConfusion hl
      rw [if_neg hne]
      exact hv

/-- Characterization of `hierDoAllreduce` with the host-phase pair
distributed over its projections. -/
theorem hierDoAllreduce_eq (gs : HorovodGlobalState) (numEntries es E0 : Nat)
    (st : JobState) :
    hierDoAllreduce gs numEntries es E0 st
      = ((if gs.is_homogeneous
            ∨ (hierSplit gs es (hierPad gs numEntries E0)).is_root_rank then
            { st with
              host_buffer := some (hierSplit gs es (hierPad gs numEntries E0)).total_buffer_len }
          else st),
        (if 0 < (hierSplit gs es (hierPad gs numEntries E0)).num_elements_per_rank then
            [ Op.ncclReduceScatter
                (hierSplit gs es (hierPad gs numEntries E0)).num_elements_per_rank ]
          else [])
        ++ (if 0 < (hierSplit gs es (hierPad gs numEntries E0)).num_elements_remaining then
            [ Op.ncclReduce
                (hierSplit gs es (hierPad gs numEntries E0)).num_elements_remaining
                (hierSplit gs es (hierPad gs numEntries E0)).root_rank ]
          else [])
        ++ (if gs.is_homogeneous
              ∨ (hierSplit gs es (hierPad gs numEntries E0)).is_root_rank then
            [ Op.waitForEvents,
              Op.memcpyDeviceToHost
                (hierSplit gs es (hierPad gs numEntries E0)).total_buffer_len,
              Op.cpuAllreduce
                (hierSplit gs es (hierPad gs numEntries E0)).total_num_elements,
              Op.memcpyHostToDevice
                (hierSplit gs es (hierPad gs numEntries E0)).total_buffer_len ]
          else [])
        ++ (if 0 < (hierSplit gs es (hierPad gs numEntries E0)).num_elements_per_rank then
            [ Op.ncclAllGather
                (hierSplit gs es (hierPad gs numEntries E0)).num_elements_per_rank ]
          else [])
        ++ (if 0 < (hierSplit gs es (hierPad gs numEntries E0)).num_elements_remaining then
            [ Op.ncclBcast
                (hierSplit gs es (hierPad gs numEntries E0)).num_elements_remaining
                (hierSplit gs es (hierPad gs numEntries E0)).root_rank ]
          else [])) := by
  rw [hierDoAllreduce]
  by_cases h3 : gs.is_homogeneous = true
    ∨ (hierSplit gs es (hierPad gs numEntries E0)).is_root_rank = true <;>
    simp [h3]

/-- The device collectives a hierarchical `DoAllreduce` enqueues, in
order. -/
theorem hierTrace_filter (gs : HorovodGlobalState) (numEntries es E0 : Nat)
    (st : JobState) :
    ∀ s, s = hierSplit gs es (hierPad gs numEntries E0) →
    ((hierDoAllreduce gs numEntries es E0 st).2).filter Op.isDeviceCollective
      = (if 0 < s.num_elements_per_rank then
            [ Op.ncclReduceScatter s.num_elements_per_rank ] else [])
        ++ (if 0 < s.num_elements_remaining then
            [ Op.ncclReduce s.num_elements_remaining s.root_rank ] else [])
        ++ (if 0 < s.num_elements_per_rank then
            [ Op.ncclAllGather s.num_elements_per_rank ] else [])
        ++ (if 0 < s.num_elements_remaining then
            [ Op.ncclBcast s.num_elements_remaining s.root_rank ] else []) := by
  intro s hs
  rw [hierDoAllreduce_eq, ← hs]
  by_cases h1 : 0 < s.num_elements_per_rank <;>
    by_cases h2 : 0 < s.num_elements_remaining <;>
      by_cases h3 : gs.is_homogeneous = true ∨ s.is_root_rank = true <;>
        simp [h1, h2, h3, List.filter, Op.isDeviceCollective]

/-! ### Claims -/

/-- C2: for a hierarchical allreduce with `E` the element count after
padding, the homogeneous case yields `Eper = E / local_size`,
`Erem = E % local_size` and `root = local_size - 1`; the heterogeneous
case yields `Eper = 0`, `Erem = E` and `root = 0`; the local
responsibility (host-buffer element count passed to the cross-node
allreduce) is `Eper + Erem` on the root rank and `Eper` elsewhere. -/
theorem hier_split_spec (gs : HorovodGlobalState) (es E : Nat) :
    (gs.is_homogeneous = true →
      (hierSplit gs es E).num_elements_per_rank = E / gs.local_size ∧
      (hierSplit gs es E).num_elements_remaining = E % gs.local_size ∧
      (hierSplit gs es E).root_rank = gs.local_size - 1) ∧
    (gs.is_homogeneous = false →
      (hierSplit gs es E).num_elements_per_rank = 0 ∧
      (hierSplit gs es E).num_elements_remaining = E ∧
      (hierSplit gs es E).root_rank = 0) ∧
    (hierSplit gs es E).is_root_rank
      = decide (gs.local_rank = (hierSplit gs es E).root_rank) ∧
    (hierSplit gs es E).total_num_elements
      = (if (hierSplit gs es E).is_root_rank then
          (hierSplit gs es E).num_elements_per_rank
            + (hierSplit gs es E).num_elements_remaining
        else (hierSplit gs es E).num_elements_per_rank) := by
  cases hom : gs.is_homogeneous <;> simp [hierSplit, hom]

/-- Witness for C2 at `gsHom`, 7 elements. -/
theorem hier_split_spec_witness :
    gsHom.is_homogeneous = true ∧
    ((hierSplit gsHom 4 7).num_elements_per_rank = 7 / gsHom.local_size ∧
     (hierSplit gsHom 4 7).num_elements_remaining = 7 % gsHom.local_size ∧
     (hierSplit gsHom 4 7).root_rank = gsHom.local_size - 1) :=
  ⟨rfl, (hier_split_spec gsHom 4 7).1 rfl⟩

/-- C3: in the homogeneous case with a fused batch of at least 2
entries, `hierPad` rounds the element count up to the smallest multiple
of `local_size * FUSION_BUFFER_ATOMIC_UNIT` that dominates it; padding
is the identity whenever the batch is single-entry or the cluster is
heterogeneous; concretely 1026 elements with `local_size = 2` pad to
1152, splitting into `Eper = 576` and `Erem = 0`. -/
theorem hier_padding_round_up (gs : HorovodGlobalState) (numEntries E m : Nat)
    (hhom : gs.is_homogeneous = true) (hfuse : 1 < numEntries)
    (hls : 0 < gs.local_size) :
    hierPad gs numEntries E % (gs.local_size * FUSION_BUFFER_ATOMIC_UNIT) = 0 ∧
    E ≤ hierPad gs numEntries E ∧
    (m % (gs.local_size * FUSION_BUFFER_ATOMIC_UNIT) = 0 → E ≤ m →
      hierPad gs numEntries E ≤ m) ∧
    (∀ gs2 nE2 E2, ¬(gs2.is_homogeneous = true ∧ 1 < nE2) →
      hierPad gs2 nE2 E2 = E2) ∧
    hierPad gsHom 2 1026 = 1152 ∧
    (hierSplit gsHom 4 (hierPad gsHom 2 1026)).num_elements_per_rank = 576 ∧
    (hierSplit gsHom 4 (hierPad gsHom 2 1026)).num_elements_remaining = 0 := by
  have hd : 0 < gs.local_size * FUSION_BUFFER_ATOMIC_UNIT := by
    have : (0:Nat) < FUSION_BUFFER_ATOMIC_UNIT := by decide
    exact Nat.mul_pos hls this
  have hpad : hierPad gs numEntries E
      = (E + gs.local_size * FUSION_BUFFER_ATOMIC_UNIT - 1)
          / (gs.local_size * FUSION_BUFFER_ATOMIC_UNIT)
          * (gs.local_size * FUSION_BUFFER_ATOMIC_UNIT) := by
    simp only [hierPad]
    rw [if_pos ⟨hhom, hfuse⟩]
  refine ⟨?_, ?_, ?_, ?_, by decide, by decide, by decide⟩
  · rw [hpad]
    exact Nat.mul_mod_left _ _
  · rw [hpad]
    exact roundUp_ge E _ hd
  · intro hm hEm
    rw [hpad]
    exact roundUp_min E _ m hd hm hEm
  · intro gs2 nE2 E2 hno
    simp only [hierPad]
    rw [if_neg hno]

/-- Witness for C3: the padded 1026-element batch is a multiple of 128
no larger than the competing multiple 1280. -/
theorem hier_padding_round_up_witness :
    gsHom.is_homogeneous = true ∧ 1 < 2 ∧ 0 < gsHom.local_size ∧
    hierPad gsHom 2 1026 ≤ 1280 :=
  ⟨rfl, by decide, by decide,
    (hier_padding_round_up gsHom 2 1026 1280 rfl (by decide) (by decide)).2.2.1
      (by decide) (by decide)⟩

/-- C1: a hierarchical `DoAllreduce` enqueues, in this order: a
reduce-scatter iff `Eper > 0`, a reduce-to-root of the `Erem` trailing
elements iff `Erem > 0`, the host-side cross-node phase, an allgather
iff `Eper > 0`, and a broadcast of the tail from root iff `Erem > 0`;
the host phase contains no device collective, so these four are exactly
the device collectives issued. -/
theorem hier_device_collectives_order (gs : HorovodGlobalState)
    (numEntries es E0 : Nat) (st : JobState) :
    ∀ s hostOps, s = hierSplit gs es (hierPad gs numEntries E0) →
    hostOps = (if gs.is_homogeneous ∨ s.is_root_rank then
        [ Op.waitForEvents, Op.memcpyDeviceToHost s.total_buffer_len,
          Op.cpuAllreduce s.total_num_elements,
          Op.memcpyHostToDevice s.total_buffer_len ]
      else ([] : List Op)) →
    (hierDoAllreduce gs numEntries es E0 st).2
      = (if 0 < s.num_elements_per_rank then
            [ Op.ncclReduceScatter s.num_elements_per_rank ] else [])
        ++ (if 0 < s.num_elements_remaining then
            [ Op.ncclReduce s.num_elements_remaining s.root_rank ] else [])
        ++ hostOps
        ++ (if 0 < s.num_elements_per_rank then
            [ Op.ncclAllGather s.num_elements_per_rank ] else [])
        ++ (if 0 < s.num_elements_remaining then
            [ Op.ncclBcast s.num_elements_remaining s.root_rank ] else []) ∧
    hostOps.filter Op.isDeviceCollective = [] ∧
    ((hierDoAllreduce gs numEntries es E0 st).2).filter Op.isDeviceCollective
      = (if 0 < s.num_elements_per_rank then
            [ Op.ncclReduceScatter s.num_elements_per_rank ] else [])
        ++ (if 0 < s.num_elements_remaining then
            [ Op.ncclReduce s.num_elements_remaining s.root_rank ] else [])
        ++ (if 0 < s.num_elements_per_rank then
            [ Op.ncclAllGather s.num_elements_per_rank ] else [])
        ++ (if 0 < s.num_elements_remaining then
            [ Op.ncclBcast s.num_elements_remaining s.root_rank ] else []) := by
  intro s hostOps hs hHost
  subst hHost
  rw [hierDoAllreduce_eq, ← hs]
  by_cases h1 : 0 < s.num_elements_per_rank <;>
    by_cases h2 : 0 < s.num_elements_remaining <;>
      by_cases h3 : gs.is_homogeneous = true ∨ s.is_root_rank = true <;>
        simp [h1, h2, h3, List.filter, Op.isDeviceCollective]

/-- Counterexample to C8 as stated: in a homogeneous fused batch of 2
entries with 2 elements and `local_size = 4`, padding raises the
element count to 256, so `Eper = 64 ≠ 0` and a reduce-scatter is
issued even though `num_elements < local_size`. -/
theorem small_batch_padding_counterexample :
    2 < gsWide.local_size ∧
    (hierSplit gsWide 4 (hierPad gsWide 2 2)).num_elements_per_rank = 64 ∧
    Op.ncclReduceScatter 64 ∈ (hierDoAllreduce gsWide 2 4 2 initJobState).2 := by
  refine ⟨by decide, by decide, ?_⟩
  decide

/-- C8 as amended: when the element count reaching the split (after
padding, which leaves single-entry and heterogeneous batches untouched)
is below `local_size`, then `Eper = 0`, no reduce-scatter and no
allgather are issued, the only device collectives are the reduce-to-root
and the broadcast (when `Erem > 0`), and the cross-node allreduce
carries the `Erem` tail elements on the root rank and zero elements on
every other participating rank. -/
theorem small_effective_count_tail_path (gs : HorovodGlobalState)
    (numEntries es E0 : Nat) (st : JobState)
    (h : hierPad gs numEntries E0 < gs.local_size) :
    let s := hierSplit gs es (hierPad gs numEntries E0)
    s.num_elements_per_rank = 0 ∧
    ((hierDoAllreduce gs numEntries es E0 st).2).filter Op.isDeviceCollective
      = (if 0 < s.num_elements_remaining then
          [ Op.ncclReduce s.num_elements_remaining s.root_rank,
            Op.ncclBcast s.num_elements_remaining s.root_rank ] else []) ∧
    (s.is_root_rank = true → s.total_num_elements = s.num_elements_remaining) ∧
    (s.is_root_rank = false → s.total_num_elements = 0) := by
  intro s
  have hper : s.num_elements_per_rank = 0 := by
    show (if gs.is_homogeneous then _ / gs.local_size else 0) = 0
    cases hom : gs.is_homogeneous with
    | false => simp
    | true => simpa using Nat.div_eq_of_lt h
  have hfil := hierTrace_filter gs numEntries es E0 st s rfl
  refine ⟨hper, ?_, ?_, ?_⟩
  · rw [hfil, hper]
    by_cases h2 : 0 < s.num_elements_remaining <;> simp [h2]
  · intro hroot
    have ht : s.total_num_elements
        = if s.is_root_rank then
            s.num_elements_per_rank + s.num_elements_remaining
          else s.num_elements_per_rank := rfl
    simp [ht, hroot, hper]
  · intro hroot
    have ht : s.total_num_elements
        = if s.is_root_rank then
            s.num_elements_per_rank + s.num_elements_remaining
          else s.num_elements_per_rank := rfl
    simp [ht, hroot, hper]

/-- Witness for the amended C8: a single-entry batch of 1 element on
`gsHom` (`local_size = 2`) keeps `Eper = 0`. -/
theorem small_effective_count_tail_path_witness :
    hierPad gsHom 1 1 < gsHom.local_size ∧
    (hierSplit gsHom 4 (hierPad gsHom 1 1)).num_elements_per_rank = 0 :=
  ⟨by decide, (small_effective_count_tail_path gsHom 1 4 1 initJobState (by decide)).1⟩

/-- C9: starting from an initialized job (null host buffer), after the
hierarchical `DoAllreduce` the host-buffer pointer is non-null exactly
when the rank participated in the cross-node phase (homogeneous cluster
or root rank); the finalizer drains the whole event queue first, then
frees the buffer exactly when the pointer is non-null, then fires the
callbacks; a rank with a null pointer frees nothing. -/
theorem host_buffer_alloc_free_paired (gs : HorovodGlobalState)
    (numEntries es E0 : Nat) (st0 : JobState) (h0 : st0.host_buffer = none)
    (entries : List String) :
    let s := hierSplit gs es (hierPad gs numEntries E0)
    let st1 := (hierDoAllreduce gs numEntries es E0 st0).1
    st1.host_buffer.isSome = (gs.is_homogeneous || s.is_root_rank) ∧
    finalizeJob entries st1
      = (st1.event_queue ++ [ "" ]).map FinalizeOp.waitEvent
        ++ (if st1.host_buffer.isSome then [ FinalizeOp.freeHostBuffer ] else [])
        ++ entries.map FinalizeOp.fireCallback ∧
    (st1.host_buffer = none → FinalizeOp.freeHostBuffer ∉ finalizeJob entries st1) := by
  intro s st1
  have hst1 : st1 = (if gs.is_homogeneous ∨ s.is_root_rank then
      { st0 with host_buffer := some s.total_buffer_len } else st0) := by
    show (hierDoAllreduce gs numEntries es E0 st0).1 = _
    rw [hierDoAllreduce]
    by_cases h3 : gs.is_homogeneous ∨ s.is_root_rank = true <;> simp [h3]
  constructor
  · rw [hst1]
    by_cases h3 : gs.is_homogeneous ∨ s.is_root_rank = true
    · rw [if_pos h3]
      cases h3 with
      | inl h => simp [h]
      | inr h => simp [h]
    · rw [if_neg h3, h0]
      push_neg at h3
      simp [h3.1, h3.2]
  constructor
  · rw [finalizeJob]
    cases hb : st1.host_buffer <;> simp
  · intro hnone
    rw [finalizeJob, hnone]
    simp [FinalizeOp.waitEvent]

/-- Witness for C9: heterogeneous non-root rank (`gsHet`, local rank 1,
root 0) allocates nothing. -/
theorem host_buffer_alloc_free_paired_witness :
    initJobState.host_buffer = none ∧
    ((hierDoAllreduce gsHet 1 4 5 initJobState).1.host_buffer.isSome
      = (gsHet.is_homogeneous
          || (hierSplit gsHet 4 (hierPad gsHet 1 5)).is_root_rank)) :=
  ⟨rfl, (host_buffer_alloc_free_paired gsHet 1 4 5 initJobState rfl [ "t" ]).1⟩

/-- Witness for C1 at the 1026-element fused scenario: the host phase
contributes no device collective. -/
theorem hier_device_collectives_order_witness :
    (hierSplit gsHom 4 (hierPad gsHom 2 1026)
      = hierSplit gsHom 4 (hierPad gsHom 2 1026)) ∧
    List.filter Op.isDeviceCollective
      (if gsHom.is_homogeneous
          ∨ (hierSplit gsHom 4 (hierPad gsHom 2 1026)).is_root_rank then
        [ Op.waitForEvents,
          Op.memcpyDeviceToHost (hierSplit gsHom 4 (hierPad gsHom 2 1026)).total_buffer_len,
          Op.cpuAllreduce (hierSplit gsHom 4 (hierPad gsHom 2 1026)).total_num_elements,
          Op.memcpyHostToDevice (hierSplit gsHom 4 (hierPad gsHom 2 1026)).total_buffer_len ]
      else []) = [] :=
  ⟨rfl, (hier_device_collectives_order gsHom 2 4 1026 initJobState
      (hierSplit gsHom 4 (hierPad gsHom 2 1026)) _ rfl rfl).2.1⟩

/-- C4: the communicator cache builds at most once per key: the build
protocol (unique-id generation on rank 0, broadcast, init-with-rank,
barrier) runs exactly when the key is absent (maps to a null handle);
existing entries are never replaced or removed; a second `InitComm` with
the same key performs no build. -/
theorem comm_cache_single_build (ctx : NCCLContext) (key : List Int)
    (h1 h2 rank size : Nat) :
    ((initComm ctx key h1 rank size).2.1 = true
      ↔ lookupComm ctx.nccl_comms key = none) ∧
    ((initComm ctx key h1 rank size).2.2
      = if lookupComm ctx.nccl_comms key = none then buildProtocol rank size
        else []) ∧
    (∀ k v, lookupComm ctx.nccl_comms k = some v →
      lookupComm (initComm ctx key h1 rank size).1.nccl_comms k = some v) ∧
    (lookupComm ctx.nccl_comms key = none →
      (initComm ctx key h1 rank size).2.1 = true ∧
      (initComm (initComm ctx key h1 rank size).1 key h2 rank size).2.1 = false) := by
  refine ⟨?_, ?_, ?_, ?_⟩
  · cases hl : lookupComm ctx.nccl_comms key <;> simp [initComm, hl]
  · cases hl : lookupComm ctx.nccl_comms key <;> simp [initComm, hl]
  · intro k v hv
    exact initComm_preserves ctx key h1 rank size k v hv
  · intro hl
    constructor
    · simp [initComm, hl]
    · simp [initComm, hl, lookupComm]

/-- Witness for C4: an empty cache builds on the first batch and not on
the second. -/
theorem comm_cache_single_build_witness :
    lookupComm (NCCLContext.mk []).nccl_comms [ 0, 1 ] = none ∧
    ((initComm (NCCLContext.mk []) [ 0, 1 ] 5 0 2).2.1 = true ∧
     (initComm (initComm (NCCLContext.mk []) [ 0, 1 ] 5 0 2).1
        [ 0, 1 ] 6 0 2).2.1 = false) :=
  ⟨rfl, (comm_cache_single_build (NCCLContext.mk []) [ 0, 1 ] 5 6 0 2).2.2.2 rfl⟩

/-- Counterexample to C5 as stated: release event 1 then event 2 on
device 0; `Acquire` returns event 1, the least recently released, not
the most recently released event 2 — the pool is a FIFO
(`std::queue`), not a LIFO. -/
theorem event_pool_not_lifo_counterexample :
    (getCudaEvent (releaseCudaEvent (releaseCudaEvent emptyPools 0 1) 0 2) 0).1
      = AcquireResult.recycled 1 ∧
    (getCudaEvent (releaseCudaEvent (releaseCudaEvent emptyPools 0 1) 0 2) 0).1
      ≠ AcquireResult.recycled 2 := by
  constructor
  · rfl
  · decide

/-- C5 as amended: the per-device event pool behaves as a FIFO queue:
`Acquire` returns the least recently `Release`d event of that device
when the pool is non-empty, and creates a fresh event with
blocking-synchronize and timing-disabled flags when it is empty;
`Release` pushes the event onto the back of that device's queue. -/
theorem event_pool_fifo (device e : Nat) (rest : List Nat) (pool : EventPools) :
    (releaseAll emptyPools device (e :: rest)) device = e :: rest ∧
    (getCudaEvent (releaseAll emptyPools device (e :: rest)) device).1
      = AcquireResult.recycled e ∧
    (pool device = [] →
      getCudaEvent pool device
        = (AcquireResult.created (cudaEventBlockingSync + cudaEventDisableTiming),
            pool)) ∧
    (releaseCudaEvent pool device e) device = pool device ++ [ e ] := by
  have h1 : (releaseAll emptyPools device (e :: rest)) device = e :: rest := by
    rw [releaseAll_apply]
    rfl
  refine ⟨h1, ?_, ?_, ?_⟩
  · simp [getCudaEvent, h1]
  · intro hp
    simp [getCudaEvent, hp]
  · simp [releaseCudaEvent]

/-- Witness for the amended C5: acquiring from an empty device pool
creates a fresh event with the two flags. -/
theorem event_pool_fifo_witness :
    emptyPools 0 = [] ∧
    getCudaEvent emptyPools 0
      = (AcquireResult.created (cudaEventBlockingSync + cudaEventDisableTiming),
          emptyPools) :=
  ⟨rfl, (event_pool_fifo 0 1 [ 2 ] emptyPools).2.2.1 rfl⟩

/-- Counterexample to C6 as stated: for the response device list
`[1, 0]` the flat strategy keys the communicator by `[1, 0]` itself,
which differs from the sorted tuple `[0, 1]` of the participating
device ids. -/
theorem device_map_not_sorted_counterexample :
    NCCLAllreduce_GetDeviceMap [ 1, 0 ] = [ 1, 0 ] ∧
    List.insertionSort (· ≤ ·) (NCCLAllreduce_GetDeviceMap [ 1, 0 ]) = [ 0, 1 ] ∧
    NCCLAllreduce_GetDeviceMap [ 1, 0 ] ≠ ([ 0, 1 ] : List Int) := by
  refine ⟨rfl, by decide, by decide⟩

/-- C6 as amended: the key is the tuple of participating device ids in
rank order (not sorted): the flat strategy uses the response's device
list as given, one device per worker rank; the hierarchical strategy
uses each intra-node peer's device, in `local_comm_ranks` order. -/
theorem device_map_rank_order (gs : HorovodGlobalState) (devices : List Int) :
    NCCLAllreduce_GetDeviceMap devices = devices ∧
    (NCCLHierarchicalAllreduce_GetDeviceMap gs devices).length
      = gs.local_comm_ranks.length ∧
    (∀ i, i < gs.local_comm_ranks.length →
      (NCCLHierarchicalAllreduce_GetDeviceMap gs devices).getD i 0
        = devices.getD (gs.local_comm_ranks.getD i 0) 0) := by
  refine ⟨rfl, by simp [NCCLHierarchicalAllreduce_GetDeviceMap], ?_⟩
  intro i hi
  simp [NCCLHierarchicalAllreduce_GetDeviceMap, List.getD_eq_getElem?_getD,
    List.getElem?_map, List.getElem?_eq_getElem hi]

/-- Witness for the amended C6 on `gsHom` with devices `[5, 6, 7, 8]`:
position 0 of the hierarchical key is the device of intra-node peer
`local_comm_ranks[0] = 1`. -/
theorem device_map_rank_order_witness :
    0 < gsHom.local_comm_ranks.length ∧
    (NCCLHierarchicalAllreduce_GetDeviceMap gsHom [ 5, 6, 7, 8 ]).getD 0 0
      = List.getD [ (5:Int), 6, 7, 8 ] (gsHom.local_comm_ranks.getD 0 0) 0 :=
  ⟨by decide, (device_map_rank_order gsHom [ 5, 6, 7, 8 ]).2.2 0 (by decide)⟩

/-- C7: the datatype mapping succeeds exactly on INT32, INT64, FLOAT16,
FLOAT32 and FLOAT64; on any other element type it fails with the fatal
message "Type X is not supported in NCCL mode." (X the type's name),
and the execute pipeline then propagates the error with no work
enqueued and no callback fired. -/
theorem nccl_datatype_mapping (dtype : DataType) (entries : List String) (E : Nat) :
    (dtype ∈ ncclSupported → ∃ t, GetNCCLDataType dtype = Except.ok t) ∧
    (dtype ∉ ncclSupported →
      GetNCCLDataType dtype
        = Except.error (String.append (String.append "Type " (DataType_Name dtype))
            " is not supported in NCCL mode.") ∧
      executeFlat dtype entries E
        = Except.error (String.append (String.append "Type " (DataType_Name dtype))
            " is not supported in NCCL mode.")) := by
  cases dtype <;>
    simp [ncclSupported, GetNCCLDataType, executeFlat, ncclDoAllreduce,
      DataType_Name]

/-- Witness for C7 at INT8: unsupported, with the exact error message. -/
theorem nccl_datatype_mapping_witness :
    DataType.HOROVOD_INT8 ∉ ncclSupported ∧
    GetNCCLDataType DataType.HOROVOD_INT8
      = Except.error (String.append
          (String.append "Type " (DataType_Name DataType.HOROVOD_INT8))
          " is not supported in NCCL mode.") :=
  ⟨by decide,
    ((nccl_datatype_mapping DataType.HOROVOD_INT8 [ "t" ] 3).2 (by decide)).1⟩

/-- C10: `Enabled` of both strategies depends only on the first entry's
device id (for hierarchical, additionally on the parameter-manager
toggle); a batch whose first entry is on a GPU is reported enabled no
matter which devices the remaining entries are on. -/
theorem enabled_first_entry_only (e1 e2 : TensorTableEntry)
    (rest1 rest2 : List TensorTableEntry) (pm : Bool) :
    (e1.device = e2.device →
      CUDAAllreduce_Enabled (e1 :: rest1) = CUDAAllreduce_Enabled (e2 :: rest2) ∧
      NCCLHierarchicalAllreduce_Enabled pm (e1 :: rest1)
        = NCCLHierarchicalAllreduce_Enabled pm (e2 :: rest2)) ∧
    (e1.device ≠ CPU_DEVICE_ID →
      CUDAAllreduce_Enabled (e1 :: rest1) = true ∧
      NCCLHierarchicalAllreduce_Enabled pm (e1 :: rest1) = pm) := by
  constructor
  · intro h
    simp [CUDAAllreduce_Enabled, NCCLHierarchicalAllreduce_Enabled, List.headI, h]
  · intro h
    simp [CUDAAllreduce_Enabled, NCCLHierarchicalAllreduce_Enabled, List.headI, h]

/-- Witness for C10: a GPU-first batch whose second entry is on the CPU
is still enabled. -/
theorem enabled_first_entry_only_witness :
    (TensorTableEntry.mk 0).device ≠ CPU_DEVICE_ID ∧
    CUDAAllreduce_Enabled
      [ TensorTableEntry.mk 0, TensorTableEntry.mk (-1) ] = true :=
  ⟨by decide,
    ((enabled_first_entry_only (TensorTableEntry.mk 0) (TensorTableEntry.mk 0)
        [ TensorTableEntry.mk (-1) ] [] true).2 (by decide)).1⟩

end Horovod
